import Mathlib

/-!
Cat Palace Lighting.

A shallow embedding of `src/CatPalaceLighting.cpp` and the properties of its
lamp decision logic: the schedule window test, the ambient-light hysteresis
test, the decision controller, the serial clock-adjustment commands, the
periodic scheduler and the main loop.

The sketch is a single-threaded Arduino program over global objects (`rtc`,
`light`, `Serial`, `Log`) and one global flag (`lights_enabled`).  Each global
becomes a field of `State`, and each `void` function becomes a function
`State → State`.
-/

namespace CatPalaceLighting

/-! ## External collaborators -/

/-- Modelled from the spec: the `TimeSpan` of RTClib (the library is not among
the sources).  A time span is a signed number of seconds. -/
structure TimeSpan where
  totalseconds : Int
  deriving DecidableEq, Repr

/-- Modelled from the spec: the constructor `TimeSpan(days, hours, minutes,
seconds)` of RTClib, the signed sum of its four arguments in seconds. -/
def TimeSpan.ofDHMS (days hours minutes seconds : Int) : TimeSpan :=
  ⟨days * 86400 + hours * 3600 + minutes * 60 + seconds⟩

/-- Modelled from the spec: the `DateTime` of RTClib (the library is not among
the sources).  The time of day is `hour` 0-23, `minute` 0-59, `second` 0-59
(spec §3, TimeOfDay); the calendar date is kept as a signed day number, without
the range limits of the clock chip. -/
structure DateTime where
  day : Int
  hh : Fin 24
  mm : Fin 60
  ss : Fin 60
  deriving DecidableEq, Repr

namespace DateTime

/-- The value of `now.hour()`, promoted to `int` as in the comparisons. -/
def hour (d : DateTime) : Int := (d.hh.val : Int)

/-- The value of `now.minute()`. -/
def minute (d : DateTime) : Int := (d.mm.val : Int)

/-- The value of `now.second()`. -/
def second (d : DateTime) : Int := (d.ss.val : Int)

/-- Seconds elapsed since midnight of day 0. -/
def unixtime (d : DateTime) : Int :=
  d.day * 86400 + d.hour * 3600 + d.minute * 60 + d.second

/-- The date and time that lie `t` seconds after midnight of day 0. -/
def ofUnixtime (t : Int) : DateTime where
  day := t / 86400
  hh := ⟨(t / 3600 % 24).toNat, by omega⟩
  mm := ⟨(t / 60 % 60).toNat, by omega⟩
  ss := ⟨(t % 60).toNat, by omega⟩

/-- Modelled from the spec: `DateTime::operator+(TimeSpan)`, a signed offset in
seconds applied to the time (spec §4.5). -/
def add (d : DateTime) (span : TimeSpan) : DateTime :=
  ofUnixtime (d.unixtime + span.totalseconds)

end DateTime

/-- Modelled from the spec: the commands the Lamp Actuator (`LampControl`, not
among the sources) can receive (spec §6). -/
inductive LampCommand where
  | activate_lamp
  | deactivate_lamp
  | tick
  deriving DecidableEq, Repr

/-- One line written through `Log`, with the values of its format arguments. -/
inductive LogEntry where
  /-- Verbose line `Time check`, written by `get_time_condition`. -/
  | time_check (hour minute second : Int) (is_correct_time : Bool)
  /-- Verbose line `LDR level`, written by `get_ambient_light_condition`. -/
  | ldr_level (ldr_level : Int) (is_correct_light_level : Bool)
  /-- Notice `Lamp activated`. -/
  | lamp_activated
  /-- Notice `Lamp deactivated`. -/
  | lamp_deactivated
  /-- Verbose line `Lamp state`, written at the end of `check_lamp_state`. -/
  | lamp_state (lights_enabled : Bool)
  /-- Notice `Working...`, the first line of `setup`. -/
  | working
  /-- Warning `RTC lost power; setting time to compile time...`. -/
  | rtc_lost_power
  /-- Notice `Time is`, with the time read in `setup`. -/
  | time_is (now : DateTime)
  /-- Notice `On time`. -/
  | on_time (on_hour on_minute : Int)
  /-- Notice `Off time`. -/
  | off_time (off_hour off_minute : Int)
  /-- Notice `Ambient light thresholds`. -/
  | thresholds (low high : Int)
  deriving DecidableEq, Repr

/-! ## Configuration constants -/

def ON_HOUR : Int := 5
def ON_MINUTE : Int := 30
def OFF_HOUR : Int := 22
def OFF_MINUTE : Int := 30

def LDR_LOWER_THRESHOLD : Int := 10
def LDR_UPPER_THRESHOLD : Int := 30

def TIME_BETWEEN_CHECKS : Nat := 1000

/-! ## Periodic scheduler -/

/-- Modelled from the spec: the two states of the Periodic Scheduler (the
`Ticker` library is not among the sources; spec §4.4). -/
inductive TickerStatus where
  | Idle
  | Running
  deriving DecidableEq, Repr

/-- Modelled from the spec: a `Ticker` of resolution `MILLIS` (spec §4.4): its
status, the baseline timestamp (a value of the 32-bit millisecond counter) and
the poll interval. -/
structure Ticker where
  status : TickerStatus
  last_time : Nat
  timer : Nat
  deriving DecidableEq, Repr

namespace Ticker

/-- Modelled from the spec: `start()` moves the scheduler to Running and
records the baseline timestamp `millis` (spec §4.4). -/
def start (millis : Nat) (tk : Ticker) : Ticker :=
  { tk with status := TickerStatus.Running, last_time := millis % 4294967296 }

/-- Modelled from the spec: the time elapsed since the baseline, by unsigned
32-bit subtraction, which is safe across the wraparound of the counter
(spec §4.4). -/
def elapsed (millis : Nat) (tk : Ticker) : Nat :=
  (millis % 4294967296 + 4294967296 - tk.last_time % 4294967296) % 4294967296

/-- Modelled from the spec: `update()` at counter value `millis`.  When the
scheduler is Running and the elapsed time is at least the interval, the bound
`callback` is invoked exactly once and the baseline moves to the firing time,
one interval after the previous baseline; otherwise nothing happens
(spec §4.4). -/
def update {σ : Type} (callback : σ → σ) (millis : Nat) (tk : Ticker) (s : σ) : Ticker × σ :=
  if tk.status = TickerStatus.Running ∧ tk.timer ≤ tk.elapsed millis then
    ({ tk with last_time := (tk.last_time + tk.timer) % 4294967296 }, callback s)
  else
    (tk, s)

end Ticker

/-! ## Program state -/

/-- The globals of the sketch and the state of the devices it drives.  The
devices are kept at their interface (spec §6): the clock by the time it holds,
the actuator by the commands it has received, the serial port by its pending
input and the log by the lines written. -/
structure State where
  /-- The time held by the clock `rtc`: what `rtc.now()` returns and
  `rtc.adjust` overwrites. -/
  rtc : DateTime
  /-- The global `lights_enabled`. -/
  lights_enabled : Bool
  /-- The commands received so far by the actuator `light`, oldest first. -/
  light : List LampCommand
  /-- The characters pending on `Serial`, next to be read first. -/
  serial : List Char
  /-- The lines written so far through `Log`, oldest first. -/
  log : List LogEntry
  deriving DecidableEq, Repr

/-! ## Functions of the sketch -/

/-- The schedule test of `get_time_condition`, with the four schedule
constants as arguments. -/
def time_window (on_hour on_minute off_hour off_minute : Int) (now : DateTime) : Bool :=
  if now.hour > on_hour ∨ (now.hour = on_hour ∧ now.minute ≥ on_minute) then
    if now.hour < off_hour ∨ (now.hour = off_hour ∧ now.minute < off_minute) then
      true
    else
      false
  else
    false

/-- Function `bool get_time_condition()`: reads the clock, tests the schedule
and logs the outcome. -/
def get_time_condition (s : State) : Bool × State :=
  let now := s.rtc
  let is_correct_time := time_window ON_HOUR ON_MINUTE OFF_HOUR OFF_MINUTE now
  (is_correct_time,
    { s with log := s.log ++ [LogEntry.time_check now.hour now.minute now.second is_correct_time] })

/-- Function `bool get_ambient_light_condition()`; `ldr_level` is the value that
`analogRead(LDR_PIN)` returns to this call. -/
def get_ambient_light_condition (ldr_level : Int) (s : State) : Bool × State :=
  let is_correct_light_level :=
    if s.lights_enabled then
      if ldr_level < LDR_UPPER_THRESHOLD then true else false
    else
      if ldr_level < LDR_LOWER_THRESHOLD then true else false
  (is_correct_light_level,
    { s with log := s.log ++ [LogEntry.ldr_level ldr_level is_correct_light_level] })

/-- Function `void check_lamp_state()`; `ldr_level` is the sensor reading taken
by this call.  Both conditions are always evaluated (`&=` does not
short-circuit). -/
def check_lamp_state (ldr_level : Int) (s : State) : State :=
  let r1 := get_time_condition s
  let r2 := get_ambient_light_condition ldr_level r1.2
  let new_lamp_state := r1.1 && r2.1
  let s2 := r2.2
  let s3 :=
    if s2.lights_enabled != new_lamp_state then
      if new_lamp_state then
        { s2 with
          light := s2.light ++ [LampCommand.activate_lamp]
          log := s2.log ++ [LogEntry.lamp_activated]
          lights_enabled := new_lamp_state }
      else
        { s2 with
          light := s2.light ++ [LampCommand.deactivate_lamp]
          log := s2.log ++ [LogEntry.lamp_deactivated]
          lights_enabled := new_lamp_state }
    else
      s2
  { s3 with log := s3.log ++ [LogEntry.lamp_state s3.lights_enabled] }

/-- Modelled from the spec: the method `rtc.adjust(dt)` of the Clock Source
(RTClib, not among the sources); the clock takes the time `dt`. -/
def rtc_adjust (dt : DateTime) (s : State) : State :=
  { s with rtc := dt }

/-- Function `void check_serial()`: when a character is pending it is read, and
the six command characters move the clock by one hour, minute or second. -/
def check_serial (s : State) : State :=
  match s.serial with
  | [] => s
  | command :: rest =>
    let s1 := { s with serial := rest }
    if command = 'H' then rtc_adjust (s1.rtc.add (TimeSpan.ofDHMS 0 1 0 0)) s1
    else if command = 'h' then rtc_adjust (s1.rtc.add (TimeSpan.ofDHMS 0 (-1) 0 0)) s1
    else if command = 'M' then rtc_adjust (s1.rtc.add (TimeSpan.ofDHMS 0 0 1 0)) s1
    else if command = 'm' then rtc_adjust (s1.rtc.add (TimeSpan.ofDHMS 0 0 (-1) 0)) s1
    else if command = 'S' then rtc_adjust (s1.rtc.add (TimeSpan.ofDHMS 0 0 0 1)) s1
    else if command = 's' then rtc_adjust (s1.rtc.add (TimeSpan.ofDHMS 0 0 0 (-1))) s1
    else s1

/-- The whole sketch: the state used by the lamp functions, the global
`time_of_last_check` and the scheduler `lamp_state_task`. -/
structure Sketch where
  st : State
  time_of_last_check : Int
  lamp_state_task : Ticker
  deriving DecidableEq, Repr

/-- Function `void setup()`.  `lost_power` is the answer of `rtc.lostPower()`,
`compile_time` the value of `DateTime(__DATE__, __TIME__)` and `millis` the
value of `millis()`; the 32-bit counter value is stored in a signed `long`. -/
def setup (lost_power : Bool) (compile_time : DateTime) (millis : Nat) (sk : Sketch) : Sketch :=
  let s1 := { sk.st with log := sk.st.log ++ [LogEntry.working] }
  let s2 :=
    if lost_power then
      { rtc_adjust compile_time s1 with log := s1.log ++ [LogEntry.rtc_lost_power] }
    else
      s1
  let now := s2.rtc
  let time_of_last_check : Int :=
    if millis % 4294967296 < 2147483648 then ((millis % 4294967296 : Nat) : Int)
    else ((millis % 4294967296 : Nat) : Int) - 4294967296
  let s3 :=
    { s2 with
      log := s2.log ++
        [LogEntry.time_is now, LogEntry.on_time ON_HOUR ON_MINUTE,
          LogEntry.off_time OFF_HOUR OFF_MINUTE,
          LogEntry.thresholds LDR_LOWER_THRESHOLD LDR_UPPER_THRESHOLD] }
  let task := sk.lamp_state_task.start millis
  let s4 := { s3 with lights_enabled := false }
  let s5 := { s4 with light := s4.light ++ [LampCommand.deactivate_lamp] }
  { st := s5, time_of_last_check := time_of_last_check, lamp_state_task := task }

/-- Function `void loop()`: the actuator's maintenance tick, then the scheduler
(which may call `check_lamp_state`), then `check_serial`.  `millis` is the
counter value seen by the scheduler and `ldr_level` the reading that
`check_lamp_state` takes if it runs. -/
def loop (millis : Nat) (ldr_level : Int) (sk : Sketch) : Sketch :=
  let s1 := { sk.st with light := sk.st.light ++ [LampCommand.tick] }
  let r := sk.lamp_state_task.update (check_lamp_state ldr_level) millis s1
  let s3 := check_serial r.2
  { sk with st := s3, lamp_state_task := r.1 }

/-! ## Driving the sketch -/

/-- What reaches the sketch from outside before one iteration of `loop`: the
counter value, the time the clock has reached, the sensor reading and the
characters that have arrived on the serial line. -/
structure LoopInput where
  millis : Nat
  now : DateTime
  ldr_level : Int
  received : List Char
  deriving DecidableEq, Repr

/-- One iteration of `loop` after the outside world has moved on. -/
def loop_step (sk : Sketch) (inp : LoopInput) : Sketch :=
  loop inp.millis inp.ldr_level
    { sk with st := { sk.st with rtc := inp.now, serial := sk.st.serial ++ inp.received } }

/-- The scheduler of the sketch, `Ticker lamp_state_task(check_lamp_state,
TIME_BETWEEN_CHECKS, 0, MILLIS)`, before `start()`. -/
def lamp_state_task : Ticker :=
  { status := TickerStatus.Idle, last_time := 0, timer := TIME_BETWEEN_CHECKS }

/-- The scheduler started at counter value `t0` and then updated `k` times, once
every 10 ms, with `callback` bound to it and `s` the state the callback acts
on. -/
def ticker_run {σ : Type} (callback : σ → σ) (t0 : Nat) (s : σ) : Nat → Ticker × σ
  | 0 => (lamp_state_task.start t0, s)
  | k + 1 =>
    Ticker.update callback ((t0 + 10 * (k + 1)) % 4294967296) (ticker_run callback t0 s k).1
      (ticker_run callback t0 s k).2

/-- One firing of `lamp_state_task`: the clock has reached the time `inp.1`,
the sensor returns `inp.2`, and `check_lamp_state` runs. -/
def poll (s : State) (inp : DateTime × Int) : State :=
  check_lamp_state inp.2 { s with rtc := inp.1 }

/-! ## Properties -/

/-- The schedule test is the lexicographic comparison of `(hour, minute)` with
the two bounds, for any constants. -/
theorem time_window_iff (on_hour on_minute off_hour off_minute : Int) (now : DateTime) :
    time_window on_hour on_minute off_hour off_minute now = true ↔
      (toLex (on_hour, on_minute) ≤ toLex (now.hour, now.minute) ∧
        toLex (now.hour, now.minute) < toLex (off_hour, off_minute)) := by
  unfold time_window
  simp only [Prod.Lex.le_iff, Prod.Lex.lt_iff]
  constructor
  · intro h
    split at h
    · split at h
      · constructor <;> omega
      · exact absurd h (by decide)
    · exact absurd h (by decide)
  · rintro ⟨h1, h2⟩
    rw [if_pos (by omega), if_pos (by omega)]

/-- C1: for every time of day, `get_time_condition` returns true exactly when
`(hour, minute)` is at or after `(5, 30)` and before `(22, 30)` in lexicographic
order; the second does not matter; 05:29 gives false, 05:30 true, 22:29 true and
22:30 false. -/
theorem get_time_condition_window (s : State) (day : Int) (h : Fin 24) (m : Fin 60)
    (sec sec2 : Fin 60) :
    ((get_time_condition { s with rtc := ⟨day, h, m, sec⟩ }).1 = true ↔
      (toLex ((5 : Int), (30 : Int)) ≤ toLex ((h.val : Int), (m.val : Int)) ∧
        toLex ((h.val : Int), (m.val : Int)) < toLex ((22 : Int), (30 : Int)))) ∧
    (get_time_condition { s with rtc := ⟨day, h, m, sec2⟩ }).1 =
      (get_time_condition { s with rtc := ⟨day, h, m, sec⟩ }).1 ∧
    (get_time_condition { s with rtc := ⟨day, 5, 29, sec⟩ }).1 = false ∧
    (get_time_condition { s with rtc := ⟨day, 5, 30, sec⟩ }).1 = true ∧
    (get_time_condition { s with rtc := ⟨day, 22, 29, sec⟩ }).1 = true ∧
    (get_time_condition { s with rtc := ⟨day, 22, 30, sec⟩ }).1 = false := by
  refine ⟨?_, rfl, rfl, rfl, rfl, rfl⟩
  exact time_window_iff ON_HOUR ON_MINUTE OFF_HOUR OFF_MINUTE ⟨day, h, m, sec⟩

/-- C2: for every reading, `get_ambient_light_condition` returns `reading < 30`
when `lights_enabled` is true and `reading < 10` when it is false; both tests
are strict, so 30 while lit and 10 while dark give false. -/
theorem get_ambient_light_condition_value (ldr_level : Int) (s : State) :
    (get_ambient_light_condition ldr_level { s with lights_enabled := true }).1 =
      decide (ldr_level < 30) ∧
    (get_ambient_light_condition ldr_level { s with lights_enabled := false }).1 =
      decide (ldr_level < 10) ∧
    (get_ambient_light_condition 30 { s with lights_enabled := true }).1 = false ∧
    (get_ambient_light_condition 10 { s with lights_enabled := false }).1 = false := by
  refine ⟨?_, ?_, rfl, rfl⟩
  · simp only [get_ambient_light_condition, LDR_UPPER_THRESHOLD, if_true]
    by_cases h : ldr_level < 30 <;> simp [h]
  · simp only [get_ambient_light_condition, LDR_LOWER_THRESHOLD]
    by_cases h : ldr_level < 10 <;> simp [h]

/-- The flag after `check_lamp_state` is the conjunction of the two conditions,
the second taken at the flag's value before the call. -/
theorem check_lamp_state_lights_enabled (ldr_level : Int) (s : State) :
    (check_lamp_state ldr_level s).lights_enabled =
      ((get_time_condition s).1 && (get_ambient_light_condition ldr_level s).1) := by
  obtain ⟨rtc, le, light, serial, log⟩ := s
  cases le <;> cases ht : time_window ON_HOUR ON_MINUTE OFF_HOUR OFF_MINUTE rtc <;>
    by_cases h1 : ldr_level < LDR_UPPER_THRESHOLD <;>
    by_cases h2 : ldr_level < LDR_LOWER_THRESHOLD <;>
    simp [check_lamp_state, get_time_condition, get_ambient_light_condition, ht, h1, h2]

/-- The commands sent by `check_lamp_state`: one on a change of the flag, none
otherwise. -/
theorem check_lamp_state_light (ldr_level : Int) (s : State) :
    (check_lamp_state ldr_level s).light =
      s.light ++
        (if ((get_time_condition s).1 && (get_ambient_light_condition ldr_level s).1) =
            s.lights_enabled then []
         else if ((get_time_condition s).1 && (get_ambient_light_condition ldr_level s).1) then
           [LampCommand.activate_lamp]
         else [LampCommand.deactivate_lamp]) := by
  obtain ⟨rtc, le, light, serial, log⟩ := s
  cases le <;> cases ht : time_window ON_HOUR ON_MINUTE OFF_HOUR OFF_MINUTE rtc <;>
    by_cases h1 : ldr_level < LDR_UPPER_THRESHOLD <;>
    by_cases h2 : ldr_level < LDR_LOWER_THRESHOLD <;>
    simp [check_lamp_state, get_time_condition, get_ambient_light_condition, ht, h1, h2]

/-- The clock is not touched by `check_lamp_state`. -/
theorem check_lamp_state_rtc (ldr_level : Int) (s : State) :
    (check_lamp_state ldr_level s).rtc = s.rtc := by
  obtain ⟨rtc, le, light, serial, log⟩ := s
  cases le <;> cases ht : time_window ON_HOUR ON_MINUTE OFF_HOUR OFF_MINUTE rtc <;>
    by_cases h1 : ldr_level < LDR_UPPER_THRESHOLD <;>
    by_cases h2 : ldr_level < LDR_LOWER_THRESHOLD <;>
    simp [check_lamp_state, get_time_condition, get_ambient_light_condition, ht, h1, h2]

/-- C3: one call of `check_lamp_state` computes `n`, the time condition AND the
light condition (taken with the prior flag `p`), leaves `lights_enabled = n`,
and sends exactly one command when `n` differs from `p` (`activate_lamp` if `n`,
else `deactivate_lamp`) and none when `n = p`. -/
theorem check_lamp_state_step (ldr_level : Int) (s : State) :
    (check_lamp_state ldr_level s).lights_enabled =
      ((get_time_condition s).1 && (get_ambient_light_condition ldr_level s).1) ∧
    (check_lamp_state ldr_level s).light =
      s.light ++
        (if ((get_time_condition s).1 && (get_ambient_light_condition ldr_level s).1) =
            s.lights_enabled then []
         else if ((get_time_condition s).1 && (get_ambient_light_condition ldr_level s).1) then
           [LampCommand.activate_lamp]
         else [LampCommand.deactivate_lamp]) :=
  ⟨check_lamp_state_lights_enabled ldr_level s, check_lamp_state_light ldr_level s⟩

/-- A second call with the same time and reading sends nothing. -/
theorem check_lamp_state_twice_light (ldr_level : Int) (s : State) :
    (check_lamp_state ldr_level (check_lamp_state ldr_level s)).light =
      (check_lamp_state ldr_level s).light := by
  rw [check_lamp_state_light ldr_level (check_lamp_state ldr_level s)]
  have hle := check_lamp_state_lights_enabled ldr_level s
  have hrtc := check_lamp_state_rtc ldr_level s
  have ht : (get_time_condition (check_lamp_state ldr_level s)).1 = (get_time_condition s).1 := by
    simp only [get_time_condition, hrtc]
  rw [ht]
  simp only [get_ambient_light_condition] at hle ⊢
  simp only [hle, LDR_UPPER_THRESHOLD, LDR_LOWER_THRESHOLD]
  cases s.lights_enabled <;> cases (get_time_condition s).1 <;>
    by_cases h1 : ldr_level < 30 <;> by_cases h2 : ldr_level < 10 <;> simp [h1, h2] <;> omega

/-- C4: two calls of `check_lamp_state` in a row, with the same time and the
same reading, send at most one actuator command in total. -/
theorem check_lamp_state_twice_at_most_one (ldr_level : Int) (s : State) :
    ∃ cmds : List LampCommand,
      (check_lamp_state ldr_level (check_lamp_state ldr_level s)).light = s.light ++ cmds ∧
      cmds.length ≤ 1 := by
  rw [check_lamp_state_twice_light, check_lamp_state_light]
  refine ⟨_, rfl, ?_⟩
  split
  · simp
  · split <;> simp

/-- Inside the schedule window a firing sets the flag to the light condition
taken at the flag's previous value. -/
theorem poll_lights_enabled_of_window (s : State) (inp : DateTime × Int)
    (hwin : toLex ((5 : Int), (30 : Int)) ≤ toLex (inp.1.hour, inp.1.minute) ∧
      toLex (inp.1.hour, inp.1.minute) < toLex ((22 : Int), (30 : Int))) :
    (poll s inp).lights_enabled =
      if s.lights_enabled then decide (inp.2 < 30) else decide (inp.2 < 10) := by
  have ht : time_window ON_HOUR ON_MINUTE OFF_HOUR OFF_MINUTE inp.1 = true :=
    (time_window_iff ON_HOUR ON_MINUTE OFF_HOUR OFF_MINUTE inp.1).2 hwin
  rw [poll, check_lamp_state_lights_enabled]
  simp only [get_time_condition, get_ambient_light_condition, ht, Bool.true_and,
    LDR_UPPER_THRESHOLD, LDR_LOWER_THRESHOLD]
  cases s.lights_enabled <;> by_cases h1 : inp.2 < 30 <;> by_cases h2 : inp.2 < 10 <;>
    simp [h1, h2]

/-- Step `k` of a run of firings inside the schedule window follows the
hysteresis band. -/
theorem scanl_poll_band (inputs : List (DateTime × Int)) :
    ∀ (s : State),
      (∀ inp ∈ inputs, toLex ((5 : Int), (30 : Int)) ≤ toLex (inp.1.hour, inp.1.minute) ∧
        toLex (inp.1.hour, inp.1.minute) < toLex ((22 : Int), (30 : Int))) →
      ∀ (k : Nat) (before after : State) (inp : DateTime × Int),
        (List.scanl poll s inputs)[k]? = some before →
        (List.scanl poll s inputs)[k + 1]? = some after →
        inputs[k]? = some inp →
        (inp.2 < 10 → after.lights_enabled = true) ∧
        (30 ≤ inp.2 → after.lights_enabled = false) ∧
        (10 ≤ inp.2 → inp.2 < 30 → after.lights_enabled = before.lights_enabled) := by
  induction inputs with
  | nil => intro s _ k before after inp _ _ h; simp at h
  | cons x rest ih =>
    intro s hwin k before after inp hb ha hi
    cases k with
    | zero =>
      rw [List.getElem?_scanl_zero] at hb
      rw [List.scanl, List.getElem?_cons_succ, List.getElem?_scanl_zero] at ha
      rw [List.getElem?_cons_zero] at hi
      have hb2 : before = s := (Option.some.inj hb).symm
      have ha2 : after = poll s x := (Option.some.inj ha).symm
      have hi2 : inp = x := (Option.some.inj hi).symm
      have h := poll_lights_enabled_of_window s x (hwin x (List.mem_cons_self x rest))
      rw [hb2, ha2, hi2, h]
      cases s.lights_enabled <;> simp <;> omega
    | succ j =>
      simp only [List.scanl, List.getElem?_cons_succ] at hb ha hi
      exact ih (poll s x) (fun i hi2 => hwin i (List.mem_cons_of_mem _ hi2)) j before after inp
        hb ha hi

/-- C5: over any finite sequence of firings of `check_lamp_state` with the time
inside the schedule window, after each call `lights_enabled` is true if the
reading is below 10, false if it is 30 or more, and unchanged if it is from 10
to 29; from `lights_enabled = false` the readings 15, 9, 25, 31, 5 give false,
true, true, false, true. -/
theorem poll_hysteresis_band (s : State) (inputs : List (DateTime × Int))
    (hwin : ∀ inp ∈ inputs,
      toLex ((5 : Int), (30 : Int)) ≤ toLex (inp.1.hour, inp.1.minute) ∧
        toLex (inp.1.hour, inp.1.minute) < toLex ((22 : Int), (30 : Int))) :
    (List.scanl poll s inputs).length = inputs.length + 1 ∧
    (∀ (k : Nat) (before after : State) (inp : DateTime × Int),
        (List.scanl poll s inputs)[k]? = some before →
        (List.scanl poll s inputs)[k + 1]? = some after →
        inputs[k]? = some inp →
        (inp.2 < 10 → after.lights_enabled = true) ∧
        (30 ≤ inp.2 → after.lights_enabled = false) ∧
        (10 ≤ inp.2 → inp.2 < 30 → after.lights_enabled = before.lights_enabled)) ∧
    (s.lights_enabled = false → inputs.map Prod.snd = [15, 9, 25, 31, 5] →
      (List.scanl poll s inputs).tail.map State.lights_enabled =
        [false, true, true, false, true]) := by
  refine ⟨List.length_scanl s inputs, scanl_poll_band inputs s hwin, ?_⟩
  intro hs hr
  rcases inputs with _ | ⟨i1, _ | ⟨i2, _ | ⟨i3, _ | ⟨i4, _ | ⟨i5, _ | ⟨i6, r⟩⟩⟩⟩⟩⟩ <;>
    simp only [List.map_cons, List.map_nil, List.cons.injEq, and_true, and_false,
      reduceCtorEq] at hr
  · obtain ⟨h1, h2, h3, h4, h5⟩ := hr
    have e1 := poll_lights_enabled_of_window s i1 (hwin i1 (by simp))
    have e2 := poll_lights_enabled_of_window (poll s i1) i2 (hwin i2 (by simp))
    have e3 := poll_lights_enabled_of_window (poll (poll s i1) i2) i3 (hwin i3 (by simp))
    have e4 := poll_lights_enabled_of_window (poll (poll (poll s i1) i2) i3) i4
      (hwin i4 (by simp))
    have e5 := poll_lights_enabled_of_window (poll (poll (poll (poll s i1) i2) i3) i4) i5
      (hwin i5 (by simp))
    rw [hs, h1] at e1
    rw [e1, h2] at e2
    rw [e2, h3] at e3
    rw [e3, h4] at e4
    rw [e4, h5] at e5
    simp [List.scanl, e1, e2, e3, e4, e5]

/-- Witness for C5: five firings at 12:00 with the readings 15, 9, 25, 31, 5,
starting with the lamp off. -/
theorem poll_hysteresis_band_witness :
    (List.scanl poll ⟨⟨0, 12, 0, 0⟩, false, [], [], []⟩
        [(⟨0, 12, 0, 0⟩, 15), (⟨0, 12, 0, 0⟩, 9), (⟨0, 12, 0, 0⟩, 25), (⟨0, 12, 0, 0⟩, 31),
          (⟨0, 12, 0, 0⟩, 5)]).tail.map State.lights_enabled =
      [false, true, true, false, true] :=
  (poll_hysteresis_band ⟨⟨0, 12, 0, 0⟩, false, [], [], []⟩
    [(⟨0, 12, 0, 0⟩, 15), (⟨0, 12, 0, 0⟩, 9), (⟨0, 12, 0, 0⟩, 25), (⟨0, 12, 0, 0⟩, 31),
      (⟨0, 12, 0, 0⟩, 5)]
    (by
      intro inp h
      simp only [List.mem_cons, List.mem_singleton, List.not_mem_nil, or_false] at h
      rcases h with rfl | rfl | rfl | rfl | rfl <;>
        exact (time_window_iff 5 30 22 30 ⟨0, 12, 0, 0⟩).1 (by decide))).2.2 rfl rfl

/-- C6, as stated, fails when the schedule window ends: at 22:30, with the lamp
lit and a reading of 5 (below 30), `check_lamp_state` clears `lights_enabled`
and sends `deactivate_lamp`. -/
theorem check_lamp_state_lit_outside_window :
    (5 : Int) < 30 ∧
    (check_lamp_state 5 ⟨⟨0, 22, 30, 0⟩, true, [], [], []⟩).lights_enabled = false ∧
    (check_lamp_state 5 ⟨⟨0, 22, 30, 0⟩, true, [], [], []⟩).light =
      [LampCommand.deactivate_lamp] := by
  decide

/-- C6, amended: for every call of `check_lamp_state` made with
`lights_enabled = true`, a reading below 30 and the time inside the schedule
window (at or after 05:30 and before 22:30), `lights_enabled` is still true
after the call and no actuator command, so no `deactivate_lamp`, is sent. -/
theorem check_lamp_state_stays_lit (ldr_level : Int) (s : State)
    (hlit : s.lights_enabled = true) (hldr : ldr_level < 30)
    (hwin : toLex ((5 : Int), (30 : Int)) ≤ toLex (s.rtc.hour, s.rtc.minute) ∧
      toLex (s.rtc.hour, s.rtc.minute) < toLex ((22 : Int), (30 : Int))) :
    (check_lamp_state ldr_level s).lights_enabled = true ∧
    (check_lamp_state ldr_level s).light = s.light := by
  have ht : time_window ON_HOUR ON_MINUTE OFF_HOUR OFF_MINUTE s.rtc = true :=
    (time_window_iff ON_HOUR ON_MINUTE OFF_HOUR OFF_MINUTE s.rtc).2 hwin
  rw [check_lamp_state_lights_enabled, check_lamp_state_light]
  simp [get_time_condition, get_ambient_light_condition, ht, hlit, hldr, LDR_UPPER_THRESHOLD]

/-- Witness for C6, amended: the lamp is lit at 12:00 and the reading is 29. -/
theorem check_lamp_state_stays_lit_witness :
    (check_lamp_state 29 ⟨⟨0, 12, 0, 0⟩, true, [], [], []⟩).lights_enabled = true ∧
    (check_lamp_state 29 ⟨⟨0, 12, 0, 0⟩, true, [], [], []⟩).light = [] :=
  check_lamp_state_stays_lit 29 ⟨⟨0, 12, 0, 0⟩, true, [], [], []⟩ rfl (by decide)
    ((time_window_iff 5 30 22 30 ⟨0, 12, 0, 0⟩).1 (by decide))

/-- C7: for every call of `check_lamp_state` made with `lights_enabled = false`
and a reading of 10 or more, at any time of day, `lights_enabled` is still
false after the call and no actuator command is sent. -/
theorem check_lamp_state_stays_dark (ldr_level : Int) (s : State)
    (hdark : s.lights_enabled = false) (hldr : 10 ≤ ldr_level) :
    (check_lamp_state ldr_level s).lights_enabled = false ∧
    (check_lamp_state ldr_level s).light = s.light := by
  have h : ¬ ldr_level < 10 := by omega
  rw [check_lamp_state_lights_enabled, check_lamp_state_light]
  simp [get_ambient_light_condition, hdark, h, LDR_LOWER_THRESHOLD]

/-- Witness for C7: the lamp is off at 12:00 and the reading is exactly 10. -/
theorem check_lamp_state_stays_dark_witness :
    (check_lamp_state 10 ⟨⟨0, 12, 0, 0⟩, false, [], [], []⟩).lights_enabled = false ∧
    (check_lamp_state 10 ⟨⟨0, 12, 0, 0⟩, false, [], [], []⟩).light = [] :=
  check_lamp_state_stays_dark 10 ⟨⟨0, 12, 0, 0⟩, false, [], [], []⟩ rfl (by decide)

/-- C8: if `lights_enabled` is true after a call of `check_lamp_state`, the time
read by that call is at or after 05:30 and before 22:30; equivalently a call
made outside the window leaves `lights_enabled` false. -/
theorem check_lamp_state_enabled_in_window (ldr_level : Int) (s : State) :
    ((check_lamp_state ldr_level s).lights_enabled = true →
      (toLex ((5 : Int), (30 : Int)) ≤ toLex (s.rtc.hour, s.rtc.minute) ∧
        toLex (s.rtc.hour, s.rtc.minute) < toLex ((22 : Int), (30 : Int)))) ∧
    (¬ (toLex ((5 : Int), (30 : Int)) ≤ toLex (s.rtc.hour, s.rtc.minute) ∧
        toLex (s.rtc.hour, s.rtc.minute) < toLex ((22 : Int), (30 : Int))) →
      (check_lamp_state ldr_level s).lights_enabled = false) := by
  have hiff := time_window_iff ON_HOUR ON_MINUTE OFF_HOUR OFF_MINUTE s.rtc
  rw [check_lamp_state_lights_enabled]
  simp only [get_time_condition]
  constructor
  · intro h
    rw [Bool.and_eq_true] at h
    exact hiff.1 h.1
  · intro h
    have ht : time_window ON_HOUR ON_MINUTE OFF_HOUR OFF_MINUTE s.rtc = false := by
      cases hc : time_window ON_HOUR ON_MINUTE OFF_HOUR OFF_MINUTE s.rtc
      · rfl
      · exact absurd (hiff.1 hc) h
    rw [ht, Bool.false_and]

/-- Witness for C8: a call at 23:00 with the lamp lit and a reading of 5 leaves
`lights_enabled` false, and a call at 12:00 that leaves it true is in the
window. -/
theorem check_lamp_state_enabled_in_window_witness :
    (check_lamp_state 5 ⟨⟨0, 23, 0, 0⟩, true, [], [], []⟩).lights_enabled = false ∧
    (toLex ((5 : Int), (30 : Int)) ≤ toLex ((12 : Int), (0 : Int)) ∧
      toLex ((12 : Int), (0 : Int)) < toLex ((22 : Int), (30 : Int))) :=
  ⟨(check_lamp_state_enabled_in_window 5 ⟨⟨0, 23, 0, 0⟩, true, [], [], []⟩).2
      (fun h => absurd ((time_window_iff 5 30 22 30 ⟨0, 23, 0, 0⟩).2 h) (by decide)),
    (check_lamp_state_enabled_in_window 5 ⟨⟨0, 12, 0, 0⟩, false, [], [], []⟩).1 (by decide)⟩

/-- Converting a number of seconds to a date and back gives the same number. -/
theorem unixtime_ofUnixtime (t : Int) : (DateTime.ofUnixtime t).unixtime = t := by
  simp only [DateTime.unixtime, DateTime.ofUnixtime, DateTime.hour, DateTime.minute,
    DateTime.second]
  omega

/-- Converting a date to a number of seconds and back gives the same date. -/
theorem ofUnixtime_unixtime (d : DateTime) : DateTime.ofUnixtime d.unixtime = d := by
  obtain ⟨day, ⟨h, hh⟩, ⟨m, hm⟩, ⟨sec, hs⟩⟩ := d
  simp only [DateTime.unixtime, DateTime.ofUnixtime, DateTime.hour, DateTime.minute,
    DateTime.second, DateTime.mk.injEq, Fin.mk.injEq]
  refine ⟨by omega, by omega, by omega, by omega⟩

/-- The offset in seconds that one call of `check_serial` applies to the clock
when it reads `command`, and the rest of its effect. -/
theorem check_serial_cons (s : State) (command : Char) (rest : List Char)
    (hs : s.serial = command :: rest) :
    (check_serial s).serial = rest ∧
    (check_serial s).rtc.unixtime =
      s.rtc.unixtime +
        (if command = 'H' then 3600 else if command = 'h' then -3600
          else if command = 'M' then 60 else if command = 'm' then -60
          else if command = 'S' then 1 else if command = 's' then -1 else 0) ∧
    (check_serial s).lights_enabled = s.lights_enabled ∧
    (check_serial s).light = s.light ∧
    (check_serial s).log = s.log := by
  obtain ⟨rtc, le, light, serial, log⟩ := s
  simp only at hs
  subst hs
  simp only [check_serial, rtc_adjust, DateTime.add, TimeSpan.ofDHMS]
  split_ifs <;> simp [unixtime_ofUnixtime]

/-- The clock after a whole command string, in seconds. -/
theorem iterate_check_serial_unixtime (cmds : List Char) :
    ∀ s : State, s.serial = cmds →
      (check_serial^[cmds.length] s).rtc.unixtime =
        s.rtc.unixtime +
          (3600 * ((cmds.count 'H' : Int) - (cmds.count 'h' : Int)) +
            60 * ((cmds.count 'M' : Int) - (cmds.count 'm' : Int)) +
            ((cmds.count 'S' : Int) - (cmds.count 's' : Int))) := by
  induction cmds with
  | nil => intro s _; simp
  | cons c rest ih =>
    intro s hs
    obtain ⟨h1, h2, -⟩ := check_serial_cons s c rest hs
    rw [List.length_cons, Function.iterate_succ_apply, ih (check_serial s) h1, h2]
    simp only [List.count_cons, beq_iff_eq]
    split_ifs <;> simp_all <;> omega

/-- One call per pending character uses up the input. -/
theorem iterate_check_serial_serial (cmds : List Char) :
    ∀ s : State, s.serial = cmds → (check_serial^[cmds.length] s).serial = [] := by
  induction cmds with
  | nil => intro s hs; simpa using hs
  | cons c rest ih =>
    intro s hs
    rw [List.length_cons, Function.iterate_succ_apply]
    exact ih (check_serial s) (check_serial_cons s c rest hs).1

/-- C9: for every initial clock value and every command string, one call of
`check_serial` per character (the clock holding still in between) leaves the
clock at the initial value plus `3600 * (#H - #h) + 60 * (#M - #m) + (#S - #s)`
seconds and the input used up; `HHh` applied to 10:00:00 gives 11:00:00. -/
theorem check_serial_command_string (s : State) (cmds : List Char) (day : Int) :
    (check_serial^[cmds.length] { s with serial := cmds }).rtc =
      s.rtc.add
        ⟨3600 * ((cmds.count 'H' : Int) - (cmds.count 'h' : Int)) +
          60 * ((cmds.count 'M' : Int) - (cmds.count 'm' : Int)) +
          ((cmds.count 'S' : Int) - (cmds.count 's' : Int))⟩ ∧
    (check_serial^[cmds.length] { s with serial := cmds }).rtc.unixtime =
      s.rtc.unixtime +
        (3600 * ((cmds.count 'H' : Int) - (cmds.count 'h' : Int)) +
          60 * ((cmds.count 'M' : Int) - (cmds.count 'm' : Int)) +
          ((cmds.count 'S' : Int) - (cmds.count 's' : Int))) ∧
    (check_serial^[cmds.length] { s with serial := cmds }).serial = [] ∧
    (check_serial^[3] { s with rtc := ⟨day, 10, 0, 0⟩, serial := "HHh".toList }).rtc =
      ⟨day, 11, 0, 0⟩ := by
  have h := iterate_check_serial_unixtime cmds { s with serial := cmds } rfl
  refine ⟨?_, h, iterate_check_serial_serial cmds { s with serial := cmds } rfl, ?_⟩
  · rw [← ofUnixtime_unixtime (check_serial^[cmds.length] { s with serial := cmds }).rtc, h]
    rfl
  · have h3 := iterate_check_serial_unixtime "HHh".toList
      { s with rtc := ⟨day, 10, 0, 0⟩, serial := "HHh".toList } rfl
    have hlen : "HHh".toList.length = 3 := rfl
    rw [hlen] at h3
    rw [← ofUnixtime_unixtime (check_serial^[3] _).rtc, h3,
      ← ofUnixtime_unixtime ⟨day, 11, 0, 0⟩]
    congr 1
    have c1 : "HHh".toList.count 'H' = 2 := by decide
    have c2 : "HHh".toList.count 'h' = 1 := by decide
    have c3 : "HHh".toList.count 'M' = 0 := by decide
    have c4 : "HHh".toList.count 'm' = 0 := by decide
    have c5 : "HHh".toList.count 'S' = 0 := by decide
    have c6 : "HHh".toList.count 's' = 0 := by decide
    rw [c1, c2, c3, c4, c5, c6]
    simp [DateTime.unixtime, DateTime.hour, DateTime.minute, DateTime.second]
    omega

/-- C10: a call of `check_serial` that reads a character other than `H`, `h`,
`M`, `m`, `S`, `s` leaves the clock unchanged and writes nothing to the log (it
only removes the character); a call made with no input pending changes
nothing. -/
theorem check_serial_ignores_other (s : State) (command : Char) (rest : List Char)
    (hH : command ≠ 'H') (hh : command ≠ 'h') (hM : command ≠ 'M') (hm : command ≠ 'm')
    (hS : command ≠ 'S') (hs : command ≠ 's') :
    (check_serial { s with serial := command :: rest }).rtc = s.rtc ∧
    (check_serial { s with serial := command :: rest }).log = s.log ∧
    check_serial { s with serial := command :: rest } = { s with serial := rest } ∧
    check_serial { s with serial := [] } = { s with serial := [] } := by
  simp [check_serial, hH, hh, hM, hm, hS, hs]

/-- Witness for C10: the character `x` is read and dropped at 10:00:00. -/
theorem check_serial_ignores_other_witness :
    check_serial ⟨⟨0, 10, 0, 0⟩, false, [], ['x', 'H'], []⟩ =
      ⟨⟨0, 10, 0, 0⟩, false, [], ['H'], []⟩ :=
  (check_serial_ignores_other ⟨⟨0, 10, 0, 0⟩, false, [], [], []⟩ 'x' ['H']
    (by decide) (by decide) (by decide) (by decide) (by decide) (by decide)).2.2.1

/-- The pending input is not touched by `check_lamp_state`. -/
theorem check_lamp_state_serial (ldr_level : Int) (s : State) :
    (check_lamp_state ldr_level s).serial = s.serial := by
  obtain ⟨rtc, le, light, serial, log⟩ := s
  cases le <;> cases ht : time_window ON_HOUR ON_MINUTE OFF_HOUR OFF_MINUTE rtc <;>
    by_cases h1 : ldr_level < LDR_UPPER_THRESHOLD <;>
    by_cases h2 : ldr_level < LDR_LOWER_THRESHOLD <;>
    simp [check_lamp_state, get_time_condition, get_ambient_light_condition, ht, h1, h2]

/-- With nothing pending, `check_serial` does nothing. -/
theorem check_serial_nil (s : State) (hs : s.serial = []) : check_serial s = s := by
  obtain ⟨rtc, le, light, serial, log⟩ := s
  simp only at hs
  subst hs
  rfl

/-- The clock after one call of `check_serial` is the clock before it, or the
clock before it moved by one of the six unit offsets. -/
theorem check_serial_rtc (s : State) :
    (check_serial s).rtc = s.rtc ∨
      ∃ span ∈ [TimeSpan.ofDHMS 0 1 0 0, TimeSpan.ofDHMS 0 (-1) 0 0, TimeSpan.ofDHMS 0 0 1 0,
          TimeSpan.ofDHMS 0 0 (-1) 0, TimeSpan.ofDHMS 0 0 0 1, TimeSpan.ofDHMS 0 0 0 (-1)],
        (check_serial s).rtc = s.rtc.add span := by
  obtain ⟨rtc, le, light, serial, log⟩ := s
  cases serial with
  | nil => exact Or.inl rfl
  | cons c rest =>
    simp only [check_serial, rtc_adjust]
    split_ifs
    · exact Or.inr ⟨_, by simp, rfl⟩
    · exact Or.inr ⟨_, by simp, rfl⟩
    · exact Or.inr ⟨_, by simp, rfl⟩
    · exact Or.inr ⟨_, by simp, rfl⟩
    · exact Or.inr ⟨_, by simp, rfl⟩
    · exact Or.inr ⟨_, by simp, rfl⟩
    · exact Or.inl rfl

/-- One call of `check_serial` removes the first pending character, if any. -/
theorem check_serial_serial (s : State) : (check_serial s).serial = s.serial.tail := by
  cases hs : s.serial with
  | nil => rw [check_serial_nil s hs, hs]; rfl
  | cons c rest => rw [(check_serial_cons s c rest hs).1]; rfl

/-- The flag and the actuator are not touched by `check_serial`. -/
theorem check_serial_frame (s : State) :
    (check_serial s).lights_enabled = s.lights_enabled ∧ (check_serial s).light = s.light := by
  cases hs : s.serial with
  | nil => rw [check_serial_nil s hs]; exact ⟨rfl, rfl⟩
  | cons c rest =>
    obtain ⟨-, -, h3, h4, -⟩ := check_serial_cons s c rest hs
    exact ⟨h3, h4⟩

/-- The scheduler leaves the clock and the pending input alone, whether it fires
`check_lamp_state` or not. -/
theorem update_check_lamp_state_rtc_serial (ldr_level : Int) (millis : Nat) (tk : Ticker)
    (s : State) :
    (tk.update (check_lamp_state ldr_level) millis s).2.rtc = s.rtc ∧
    (tk.update (check_lamp_state ldr_level) millis s).2.serial = s.serial := by
  unfold Ticker.update
  split
  · exact ⟨check_lamp_state_rtc ldr_level s, check_lamp_state_serial ldr_level s⟩
  · exact ⟨rfl, rfl⟩

/-- C11: one call of `check_serial` consumes at most one pending character: from
a non-empty queue exactly the first character is removed and the others stay
pending in order, from an empty queue nothing is consumed; hence one iteration
of `loop` removes at most the first pending character and leaves the clock
where it was or moves it by a single unit offset. -/
theorem check_serial_consumes_one (s : State) (command : Char) (rest : List Char)
    (millis : Nat) (ldr_level : Int) (sk : Sketch) :
    (check_serial { s with serial := command :: rest }).serial = rest ∧
    check_serial { s with serial := [] } = { s with serial := [] } ∧
    (loop millis ldr_level sk).st.serial = sk.st.serial.tail ∧
    ((loop millis ldr_level sk).st.rtc = sk.st.rtc ∨
      ∃ span ∈ [TimeSpan.ofDHMS 0 1 0 0, TimeSpan.ofDHMS 0 (-1) 0 0, TimeSpan.ofDHMS 0 0 1 0,
          TimeSpan.ofDHMS 0 0 (-1) 0, TimeSpan.ofDHMS 0 0 0 1, TimeSpan.ofDHMS 0 0 0 (-1)],
        (loop millis ldr_level sk).st.rtc = sk.st.rtc.add span) := by
  have hu := update_check_lamp_state_rtc_serial ldr_level millis sk.lamp_state_task
    { sk.st with light := sk.st.light ++ [LampCommand.tick] }
  refine ⟨(check_serial_cons _ command rest rfl).1, check_serial_nil _ rfl, ?_, ?_⟩
  · simp only [loop]
    rw [check_serial_serial, hu.2]
  · simp only [loop]
    have h := check_serial_rtc
      (sk.lamp_state_task.update (check_lamp_state ldr_level) millis
        { sk.st with light := sk.st.light ++ [LampCommand.tick] }).2
    rw [hu.1] at h
    exact h

/-- C12: `check_serial` leaves `lights_enabled` unchanged and sends no command
to the actuator (so no `activate_lamp` or `deactivate_lamp`), for every state
and so for every input character; `check_lamp_state` leaves the clock
unchanged. -/
theorem check_serial_check_lamp_state_frame (s : State) (ldr_level : Int) :
    (check_serial s).lights_enabled = s.lights_enabled ∧
    (check_serial s).light = s.light ∧
    (check_lamp_state ldr_level s).rtc = s.rtc :=
  ⟨(check_serial_frame s).1, (check_serial_frame s).2, check_lamp_state_rtc ldr_level s⟩

/-- C14: with the schedule constants as parameters, a window whose off-time is
earlier than or equal to its on-time in `(hour, minute)` order makes the
schedule test false at every time of day. -/
theorem time_window_off_before_on (on_hour on_minute off_hour off_minute : Int)
    (now : DateTime)
    (hoff : toLex (off_hour, off_minute) ≤ toLex (on_hour, on_minute)) :
    time_window on_hour on_minute off_hour off_minute now = false := by
  cases hc : time_window on_hour on_minute off_hour off_minute now
  · rfl
  · obtain ⟨h1, h2⟩ := (time_window_iff on_hour on_minute off_hour off_minute now).1 hc
    exact absurd (lt_of_lt_of_le h2 (le_trans hoff h1)) (lt_irrefl _)

/-- Witness for C14: the overnight window from 22:30 to 05:30, tested at
23:00. -/
theorem time_window_off_before_on_witness :
    time_window 22 30 5 30 ⟨0, 23, 0, 0⟩ = false :=
  time_window_off_before_on 22 30 5 30 ⟨0, 23, 0, 0⟩
    ((Prod.Lex.le_iff _ _).2 (Or.inl (by decide)))

/-- C17: for every reading, if `get_ambient_light_condition` returns true with
`lights_enabled = false` then it returns true for the same reading with
`lights_enabled = true`; the lower threshold 10 does not exceed the upper
threshold 30. -/
theorem get_ambient_light_condition_mono (ldr_level : Int) (s : State)
    (hdark : (get_ambient_light_condition ldr_level { s with lights_enabled := false }).1 =
      true) :
    (get_ambient_light_condition ldr_level { s with lights_enabled := true }).1 = true ∧
    LDR_LOWER_THRESHOLD ≤ LDR_UPPER_THRESHOLD := by
  simp only [get_ambient_light_condition, LDR_LOWER_THRESHOLD, LDR_UPPER_THRESHOLD] at hdark ⊢
  have h10 : ldr_level < 10 := by
    by_contra hn
    simp [hn] at hdark
  have h30 : ldr_level < 30 := by omega
  simp [h30]

/-- Witness for C17: the reading 5 at 12:00. -/
theorem get_ambient_light_condition_mono_witness :
    (get_ambient_light_condition 5 ⟨⟨0, 12, 0, 0⟩, true, [], [], []⟩).1 = true :=
  (get_ambient_light_condition_mono 5 ⟨⟨0, 12, 0, 0⟩, false, [], [], []⟩ (by decide)).1

/-- Unsigned 32-bit subtraction recovers a delay shorter than the range of the
counter, wherever the counter wraps. -/
theorem elapsed_add (base delay : Nat) (tk : Ticker) (hd : delay < 4294967296)
    (hl : tk.last_time = base % 4294967296) :
    tk.elapsed ((base + delay) % 4294967296) = delay := by
  have hb : base % 4294967296 < 4294967296 := Nat.mod_lt _ (by decide)
  have h1 : (base + delay) % 4294967296 = (base % 4294967296 + delay) % 4294967296 := by
    rw [Nat.add_mod, Nat.mod_eq_of_lt hd]
  simp only [Ticker.elapsed, hl, Nat.mod_mod, h1]
  generalize base % 4294967296 = b at hb
  omega

/-- The scheduler after `k` updates 10 ms apart: it is Running, its baseline is
the start time plus one interval per firing, and the callback has run once for
every full 1000 ms. -/
theorem ticker_run_eq {σ : Type} (callback : σ → σ) (t0 : Nat) (s : σ) (k : Nat) :
    ticker_run callback t0 s k =
      (⟨TickerStatus.Running, (t0 + 1000 * (k / 100)) % 4294967296, 1000⟩,
        callback^[k / 100] s) := by
  induction k with
  | zero => rfl
  | succ k ih =>
    rw [ticker_run, ih]
    have ht : t0 + 10 * (k + 1) = (t0 + 1000 * (k / 100)) + 10 * (k % 100 + 1) := by omega
    have he := elapsed_add (t0 + 1000 * (k / 100)) (10 * (k % 100 + 1))
      ⟨TickerStatus.Running, (t0 + 1000 * (k / 100)) % 4294967296, 1000⟩ (by omega) rfl
    rw [← ht] at he
    simp only [Ticker.update, he, true_and]
    by_cases hk : (k + 1) % 100 = 0
    · have hq : (k + 1) / 100 = k / 100 + 1 := by omega
      have hl : ((t0 + 1000 * (k / 100)) % 4294967296 + 1000) % 4294967296 =
          (t0 + 1000 * (k / 100 + 1)) % 4294967296 := by
        have ha : t0 + 1000 * (k / 100) + 1000 = t0 + 1000 * (k / 100 + 1) := by omega
        rw [Nat.mod_add_mod, ha]
      rw [if_pos (by omega), hq, Function.iterate_succ_apply', hl]
    · have hq : (k + 1) / 100 = k / 100 := by omega
      rw [if_neg (by omega), hq]

/-- C13: with the poll interval 1000 ms and `update()` called every 10 ms after
`start()`, the callback has run exactly once per 1000 ms elapsed, an update
runs it at most once, and the `n`-th run happens exactly at the update made
`1000 * n` ms after the baseline (not before), whatever the start value of the
32-bit millisecond counter, so also across its wraparound. -/
theorem ticker_run_cadence {σ : Type} (callback : σ → σ) (t0 : Nat) (s : σ) (k n : Nat) :
    (ticker_run callback t0 s k).2 = callback^[(10 * k) / 1000] s ∧
    (ticker_run callback t0 s (k + 1)).2 =
      (if (10 * (k + 1)) % 1000 = 0 then callback (ticker_run callback t0 s k).2
       else (ticker_run callback t0 s k).2) ∧
    (ticker_run callback t0 s (100 * n)).2 = callback^[n] s ∧
    (ticker_run callback t0 s (100 * (n + 1) - 1)).2 = callback^[n] s ∧
    (ticker_run callback t0 s k).1.last_time = (t0 + 1000 * ((10 * k) / 1000)) % 4294967296 := by
  simp only [ticker_run_eq]
  have e1 : (10 * k) / 1000 = k / 100 := by omega
  have e2 : (100 * n) / 100 = n := by omega
  have e3 : (100 * (n + 1) - 1) / 100 = n := by omega
  rw [e1, e2, e3]
  refine ⟨rfl, ?_, rfl, rfl, rfl⟩
  by_cases hk : (k + 1) % 100 = 0
  · have hq : (k + 1) / 100 = k / 100 + 1 := by omega
    rw [if_pos (by omega), hq, Function.iterate_succ_apply']
  · have hq : (k + 1) / 100 = k / 100 := by omega
    rw [if_neg (by omega), hq]

/-- The agreement of `lights_enabled` with the last `activate_lamp` or
`deactivate_lamp` command received by the actuator is kept by
`check_lamp_state`. -/
theorem check_lamp_state_flag_matches (ldr_level : Int) (s : State)
    (h : (s.light.filter
        (fun c => c = LampCommand.activate_lamp ∨ c = LampCommand.deactivate_lamp)).getLast? =
      some (if s.lights_enabled then LampCommand.activate_lamp
        else LampCommand.deactivate_lamp)) :
    ((check_lamp_state ldr_level s).light.filter
        (fun c => c = LampCommand.activate_lamp ∨ c = LampCommand.deactivate_lamp)).getLast? =
      some (if (check_lamp_state ldr_level s).lights_enabled then LampCommand.activate_lamp
        else LampCommand.deactivate_lamp) := by
  rw [check_lamp_state_light, check_lamp_state_lights_enabled]
  generalize ((get_time_condition s).1 && (get_ambient_light_condition ldr_level s).1) = n
    at *
  cases n <;> cases hp : s.lights_enabled <;> simp only [hp] at h ⊢
  · simpa using h
  · simp
  · simp
  · simpa using h

/-- The agreement of flag and actuator is kept by one iteration of `loop`. -/
theorem loop_flag_matches (millis : Nat) (ldr_level : Int) (sk : Sketch)
    (h : (sk.st.light.filter
        (fun c => c = LampCommand.activate_lamp ∨ c = LampCommand.deactivate_lamp)).getLast? =
      some (if sk.st.lights_enabled then LampCommand.activate_lamp
        else LampCommand.deactivate_lamp)) :
    ((loop millis ldr_level sk).st.light.filter
        (fun c => c = LampCommand.activate_lamp ∨ c = LampCommand.deactivate_lamp)).getLast? =
      some (if (loop millis ldr_level sk).st.lights_enabled then LampCommand.activate_lamp
        else LampCommand.deactivate_lamp) := by
  have h1 : (({ sk.st with light := sk.st.light ++ [LampCommand.tick] } : State).light.filter
        (fun c => c = LampCommand.activate_lamp ∨ c = LampCommand.deactivate_lamp)).getLast? =
      some (if ({ sk.st with light := sk.st.light ++ [LampCommand.tick] } : State).lights_enabled
        then LampCommand.activate_lamp else LampCommand.deactivate_lamp) := by
    simpa [List.filter_append] using h
  simp only [loop, (check_serial_frame _).1, (check_serial_frame _).2]
  unfold Ticker.update
  split
  · exact check_lamp_state_flag_matches ldr_level _ h1
  · exact h1

/-- The agreement of flag and actuator holds after any run of `loop` iterations
from a state in which it holds. -/
theorem foldl_loop_step_flag_matches (inputs : List LoopInput) :
    ∀ sk : Sketch,
      (sk.st.light.filter
          (fun c => c = LampCommand.activate_lamp ∨ c = LampCommand.deactivate_lamp)).getLast? =
        some (if sk.st.lights_enabled then LampCommand.activate_lamp
          else LampCommand.deactivate_lamp) →
      ((inputs.foldl loop_step sk).st.light.filter
          (fun c => c = LampCommand.activate_lamp ∨ c = LampCommand.deactivate_lamp)).getLast? =
        some (if (inputs.foldl loop_step sk).st.lights_enabled then LampCommand.activate_lamp
          else LampCommand.deactivate_lamp) := by
  induction inputs with
  | nil => intro sk h; exact h
  | cons x rest ih =>
    intro sk h
    rw [List.foldl_cons]
    exact ih (loop_step sk x) (loop_flag_matches x.millis x.ldr_level _ h)

/-- What `setup` leaves: the flag is false and the last command is
`deactivate_lamp`. -/
theorem setup_st (lost_power : Bool) (compile_time : DateTime) (millis : Nat) (pre : Sketch) :
    (setup lost_power compile_time millis pre).st.lights_enabled = false ∧
    (setup lost_power compile_time millis pre).st.light =
      pre.st.light ++ [LampCommand.deactivate_lamp] := by
  cases lost_power <;> exact ⟨rfl, rfl⟩

/-- C15: in every state reached from `setup` by any sequence of `loop`
iterations (any counter values, times, readings and input characters),
`lights_enabled` is true if and only if the most recent `activate_lamp` or
`deactivate_lamp` command received by the actuator is `activate_lamp`; `setup`
establishes this with `lights_enabled = false` and a `deactivate_lamp`
command. -/
theorem lights_enabled_iff_last_command (lost_power : Bool) (compile_time : DateTime)
    (millis : Nat) (pre : Sketch) (inputs : List LoopInput) :
    (setup lost_power compile_time millis pre).st.lights_enabled = false ∧
    (setup lost_power compile_time millis pre).st.light =
      pre.st.light ++ [LampCommand.deactivate_lamp] ∧
    ((inputs.foldl loop_step (setup lost_power compile_time millis pre)).st.lights_enabled =
        true ↔
      ((inputs.foldl loop_step (setup lost_power compile_time millis pre)).st.light.filter
          (fun c => c = LampCommand.activate_lamp ∨ c = LampCommand.deactivate_lamp)).getLast? =
        some LampCommand.activate_lamp) := by
  obtain ⟨h1, h2⟩ := setup_st lost_power compile_time millis pre
  refine ⟨h1, h2, ?_⟩
  have h := foldl_loop_step_flag_matches inputs (setup lost_power compile_time millis pre)
    (by rw [h1, h2, List.filter_append]; simp)
  rw [h]
  cases (inputs.foldl loop_step (setup lost_power compile_time millis pre)).st.lights_enabled <;>
    simp

/-- The changes of the flag over a run: the change made by the first firing,
then the changes over the rest of the run. -/
theorem zipWith_scanl_poll_cons (s : State) (x : DateTime × Int)
    (rest : List (DateTime × Int)) :
    List.zipWith (fun a b => a != b)
        ((List.scanl poll s (x :: rest)).map State.lights_enabled)
        ((List.scanl poll s (x :: rest)).map State.lights_enabled).tail =
      (s.lights_enabled != (poll s x).lights_enabled) ::
        List.zipWith (fun a b => a != b)
          ((List.scanl poll (poll s x) rest).map State.lights_enabled)
          ((List.scanl poll (poll s x) rest).map State.lights_enabled).tail := by
  cases rest <;> rfl

/-- An alternating run of commands, one step unrolled; `b` is the flag before
the first command. -/
theorem alternating_succ (b : Bool) (n : Nat) :
    (List.range (n + 1)).map
        (fun i => if ((i % 2 == 0) != b) = true then LampCommand.activate_lamp
          else LampCommand.deactivate_lamp) =
      (if b = true then LampCommand.deactivate_lamp else LampCommand.activate_lamp) ::
        (List.range n).map
          (fun i => if ((i % 2 == 0) != !b) = true then LampCommand.activate_lamp
            else LampCommand.deactivate_lamp) := by
  rw [List.range_succ_eq_map, List.map_cons, List.map_map]
  congr 1
  · cases b <;> rfl
  · apply List.map_congr_left
    intro i _
    rcases Nat.mod_two_eq_zero_or_one i with h | h
    · have h2 : (i + 1) % 2 = 1 := by omega
      cases b <;> simp [h, h2]
    · have h2 : (i + 1) % 2 = 0 := by omega
      cases b <;> simp [h, h2]

/-- One firing sends a command exactly when it changes the flag, the command
that matches the new value. -/
theorem poll_light (s : State) (inp : DateTime × Int) :
    (poll s inp).light =
      s.light ++
        (if (poll s inp).lights_enabled = s.lights_enabled then []
         else if (poll s inp).lights_enabled = true then [LampCommand.activate_lamp]
         else [LampCommand.deactivate_lamp]) := by
  simp only [poll, check_lamp_state_light, check_lamp_state_lights_enabled]

/-- The commands sent over a run of firings alternate, starting with the one
opposite to the flag, and there is one for each change of the flag. -/
theorem foldl_poll_light (inputs : List (DateTime × Int)) :
    ∀ s : State,
      (inputs.foldl poll s).light =
        s.light ++
          (List.range
              ((List.zipWith (fun a b => a != b)
                  ((List.scanl poll s inputs).map State.lights_enabled)
                  ((List.scanl poll s inputs).map State.lights_enabled).tail).count true)).map
            (fun i => if ((i % 2 == 0) != s.lights_enabled) = true then
                LampCommand.activate_lamp
              else LampCommand.deactivate_lamp) := by
  induction inputs with
  | nil => intro s; simp [List.scanl]
  | cons x rest ih =>
    intro s
    rw [List.foldl_cons, ih (poll s x), zipWith_scanl_poll_cons, poll_light s x]
    by_cases hc : (poll s x).lights_enabled = s.lights_enabled
    · have hne : (s.lights_enabled != (poll s x).lights_enabled) = false := by
        rw [hc]; simp
      rw [if_pos hc, hne, hc, List.append_nil]
      simp
    · have hne : (s.lights_enabled != (poll s x).lights_enabled) = true := by
        cases h1 : s.lights_enabled <;> cases h2 : (poll s x).lights_enabled <;> simp_all
      have hnot : (poll s x).lights_enabled = !s.lights_enabled := by
        cases h1 : s.lights_enabled <;> cases h2 : (poll s x).lights_enabled <;> simp_all
      rw [if_neg hc, hne, List.count_cons_self, alternating_succ, hnot, List.append_assoc]
      cases s.lights_enabled <;> simp

/-- In an alternating run no command equals the one before it; `b` is the flag
before the run and the command before the run is the one that set it. -/
theorem chain_alternating (n : Nat) :
    ∀ b : Bool,
      List.Chain (fun c d => c ≠ d)
        (if b = true then LampCommand.activate_lamp else LampCommand.deactivate_lamp)
        ((List.range n).map
          (fun i => if ((i % 2 == 0) != b) = true then LampCommand.activate_lamp
            else LampCommand.deactivate_lamp)) := by
  induction n with
  | zero => intro b; exact List.Chain.nil
  | succ n ih =>
    intro b
    rw [alternating_succ]
    refine List.Chain.cons ?_ ?_
    · cases b <;> decide
    · have h := ih (!b)
      cases b
      · exact h
      · exact h

/-- C16: over every sequence of `check_lamp_state` calls after `setup` (any
times and readings), the commands received by the actuator after the
`deactivate_lamp` of `setup` are `activate_lamp`, `deactivate_lamp`,
`activate_lamp`, ... in strict alternation, no command equals the one before
it, and their number is the number of changes of `lights_enabled`. -/
theorem commands_alternate (lost_power : Bool) (compile_time : DateTime) (millis : Nat)
    (pre : Sketch) (inputs : List (DateTime × Int)) :
    (inputs.foldl poll (setup lost_power compile_time millis pre).st).light =
      pre.st.light ++ LampCommand.deactivate_lamp ::
        (List.range
            ((List.zipWith (fun a b => a != b)
                ((List.scanl poll (setup lost_power compile_time millis pre).st inputs).map
                  State.lights_enabled)
                ((List.scanl poll (setup lost_power compile_time millis pre).st inputs).map
                  State.lights_enabled).tail).count true)).map
          (fun i => if i % 2 = 0 then LampCommand.activate_lamp
            else LampCommand.deactivate_lamp) ∧
    List.Chain' (fun c d => c ≠ d)
      ((inputs.foldl poll (setup lost_power compile_time millis pre).st).light.drop
        pre.st.light.length) := by
  obtain ⟨h1, h2⟩ := setup_st lost_power compile_time millis pre
  have hf : (fun i : Nat => if ((i % 2 == 0) != false) = true then LampCommand.activate_lamp
      else LampCommand.deactivate_lamp) =
      (fun i : Nat => if i % 2 = 0 then LampCommand.activate_lamp
        else LampCommand.deactivate_lamp) := by
    funext i
    simp
  have h := foldl_poll_light inputs (setup lost_power compile_time millis pre).st
  rw [h1, h2, hf, List.append_assoc, List.singleton_append] at h
  refine ⟨h, ?_⟩
  rw [h, List.drop_left]
  have hc := chain_alternating
    ((List.zipWith (fun a b => a != b)
      ((List.scanl poll (setup lost_power compile_time millis pre).st inputs).map
        State.lights_enabled)
      ((List.scanl poll (setup lost_power compile_time millis pre).st inputs).map
        State.lights_enabled).tail).count true) false
  rw [hf] at hc
  exact hc

end CatPalaceLighting


